import Mathlib

/-!
Verification development for the report-merging pipeline in
`SEIR_Foundations/Lab5/python/5a_merge_reports.py`.

The parsed JSON documents the script traverses are modelled by the
inductive type `PyVal` (Python `None`, `bool`, `int`, `str`, `list`,
`dict` — the values `json.loads` can produce, with JSON numbers taken
as integers).  Python-level operations the script relies on (truthiness,
`or`, `dict.get`, `str()`, `.strip()`, `.upper()`, `.lower()`, slicing)
are modelled explicitly; `.upper()`/`.lower()` are modelled on the ASCII
range, which is exhaustive for the taxonomy and alias tokens the script
compares against.

The pipeline functions keep their source names: `normalize_sev`,
`extract_findings_generic` (with its inner generator `walk`), `dedupe`,
`build_llm_prompt`, `render_fallback_report`, `call_local_llm_ollama`,
and the report-selection logic of `main` (`mainReport`).
-/

/-- Model of the values `json.loads` produces (Python side of the JSON data
model): `None`, booleans, numbers (taken as integers), strings, lists and
string-keyed dicts. -/
inductive PyVal where
  | none
  | bool (b : Bool)
  | int (n : Int)
  | str (s : String)
  | list (xs : List PyVal)
  | dict (kvs : List (String × PyVal))
deriving Repr

/-- Python truthiness (`bool(x)`): `None`, `False`, `0`, `""`, `[]` and
an empty dict are falsy; everything else is truthy. -/
def pyTruthy : PyVal → Bool
  | .none => false
  | .bool b => b
  | .int n => n != 0
  | .str s => s != ""
  | .list xs => !xs.isEmpty
  | .dict kvs => !kvs.isEmpty

/-- Python `d.get(k, dflt)`: the value stored under `k`, or `dflt` when the
key is absent. -/
def pyGetD (kvs : List (String × PyVal)) (k : String) (dflt : PyVal) : PyVal :=
  match kvs.find? (fun p => p.1 = k) with
  | some p => p.2
  | Option.none => dflt

/-- Python `d.get(k)` (default `None`). -/
def pyGet (kvs : List (String × PyVal)) (k : String) : PyVal :=
  pyGetD kvs k PyVal.none

/-- Python `x or y`: `x` when `x` is truthy, else `y`. -/
def pyOr (a b : PyVal) : PyVal :=
  if pyTruthy a then a else b

/-- ASCII uppercase of one character (model of `str.upper` per character). -/
def asciiUpperChar (c : Char) : Char :=
  if 'a' ≤ c ∧ c ≤ 'z' then Char.ofNat (c.toNat - 32) else c

/-- ASCII lowercase of one character (model of `str.lower` per character). -/
def asciiLowerChar (c : Char) : Char :=
  if 'A' ≤ c ∧ c ≤ 'Z' then Char.ofNat (c.toNat + 32) else c

/-- Model of Python `str.upper()` (ASCII range). -/
def pyUpper (s : String) : String := String.mk (s.data.map asciiUpperChar)

/-- Model of Python `str.lower()` (ASCII range). -/
def pyLower (s : String) : String := String.mk (s.data.map asciiLowerChar)

/-- Characters Python `str.strip()` removes by default. -/
def pyIsSpace (c : Char) : Bool :=
  c = ' ' ∨ c = '\t' ∨ c = '\n' ∨ c = '\r' ∨ c = '\x0b' ∨ c = '\x0c'

/-- Model of Python `str.strip()`: drop leading and trailing whitespace. -/
def pyStrip (s : String) : String :=
  String.mk (((s.data.dropWhile pyIsSpace).reverse.dropWhile pyIsSpace).reverse)

/-- Model of Python slicing `s[:n]`: the first `n` characters of `s`. -/
def strTake (s : String) (n : Nat) : String := String.mk (s.data.take n)

/-- Lower-case hexadecimal digit. -/
def hexDigit (n : Nat) : Char :=
  if n < 10 then Char.ofNat (48 + n) else Char.ofNat (87 + n)

/-- Two-digit lower-case hexadecimal rendering (for `repr` escapes). -/
def hex2 (n : Nat) : String := String.mk [hexDigit (n / 16 % 16), hexDigit (n % 16)]

/-- Four-digit lower-case hexadecimal rendering (for JSON escapes). -/
def hex4 (n : Nat) : String :=
  String.mk [hexDigit (n / 4096 % 16), hexDigit (n / 256 % 16), hexDigit (n / 16 % 16),
    hexDigit (n % 16)]

/-- Escape of one character inside a Python string `repr` quoted with `q`. -/
def pyReprCharEsc (q : Char) (c : Char) : String :=
  if c = '\\' then "\\\\"
  else if c = q then String.mk ['\\', q]
  else if c = '\n' then "\\n"
  else if c = '\r' then "\\r"
  else if c = '\t' then "\\t"
  else if c.toNat < 32 ∨ c.toNat = 127 then "\\x" ++ hex2 c.toNat
  else String.mk [c]

/-- Model of Python `repr` of a string: single-quoted unless the string
contains a single quote and no double quote. -/
def pyReprStr (s : String) : String :=
  let q := if s.data.contains '\'' ∧ ¬ s.data.contains '"' then '"' else '\''
  String.mk [q] ++ String.join (s.data.map (pyReprCharEsc q)) ++ String.mk [q]

mutual
/-- Model of Python `repr` on parsed JSON values. -/
def pyRepr : PyVal → String
  | .none => "None"
  | .bool true => "True"
  | .bool false => "False"
  | .int n => toString n
  | .str s => pyReprStr s
  | .list xs => "[" ++ String.intercalate ", " (pyReprList xs) ++ "]"
  | .dict kvs => "\x7b" ++ String.intercalate ", " (pyReprKVs kvs) ++ "\x7d"
/-- Element renderings for `pyRepr` of a list. -/
def pyReprList : List PyVal → List String
  | [] => []
  | x :: rest => pyRepr x :: pyReprList rest
/-- Entry renderings for `pyRepr` of a dict. -/
def pyReprKVs : List (String × PyVal) → List String
  | [] => []
  | (k, v) :: rest => (pyReprStr k ++ ": " ++ pyRepr v) :: pyReprKVs rest
end

/-- Model of Python `str()` on parsed JSON values: identity on strings,
`repr`-like rendering otherwise (`str(None) = "None"`, `str(0) = "0"`, …). -/
def pyStr : PyVal → String
  | .str s => s
  | v => pyRepr v

/-- Canonical severity taxonomy, in report order (`SEV_ORDER` in the source). -/
def SEV_ORDER : List String := ["CRITICAL", "HIGH", "MEDIUM", "LOW", "INFO", "UNSPECIFIED"]

/-- Alias table lookup of `normalize_sev` (`mapping.get(s, s)` in the source). -/
def sevAlias (s : String) : String :=
  if s = "CRIT" then "CRITICAL"
  else if s = "SEVERE" then "HIGH"
  else if s = "MODERATE" then "MEDIUM"
  else if s = "INFORMATIONAL" then "INFO"
  else s

/-- Model of `normalize_sev`: falsy input maps to `UNSPECIFIED`; otherwise the
stripped, uppercased `str()` of the input goes through the alias table and is
kept only when it lands in `SEV_ORDER`. -/
def normalize_sev (sev : PyVal) : String :=
  if ¬ pyTruthy sev then "UNSPECIFIED"
  else
    let s := pyUpper (pyStrip (pyStr sev))
    let s2 := sevAlias s
    if s2 ∈ SEV_ORDER then s2 else "UNSPECIFIED"

mutual
/-- Model of the generator `walk` inside `extract_findings_generic`: the list
of dict nodes of the tree in depth-first preorder (a dict is yielded, then its
values are walked; list elements are walked in order; leaves yield nothing). -/
def walk : PyVal → List PyVal
  | .dict kvs => .dict kvs :: walkKVs kvs
  | .list xs => walkList xs
  | _ => []
/-- Walk of the values of a dict, in entry order. -/
def walkKVs : List (String × PyVal) → List PyVal
  | [] => []
  | (_, v) :: rest => walk v ++ walkKVs rest
/-- Walk of the elements of a list, in order. -/
def walkList : List PyVal → List PyVal
  | [] => []
  | x :: rest => walk x ++ walkList rest
end

/-- Canonical Finding record produced by the extractor (the dicts appended to
`findings` in `extract_findings_generic`, with their fixed key set). -/
structure Finding where
  source : String
  title : String
  severity : String
  description : String
  resource : String
  cve : PyVal
deriving Repr

/-- Severity-like key group of the match rule. -/
def severityKeys : List String := ["severity", "level", "risk", "priority"]

/-- Identifier-like key group of the match rule. -/
def idKeys : List String := ["title", "name", "check", "rule", "id"]

/-- Match rule of `extract_findings_generic`: the node's lowercased key set
meets both `severityKeys` and `idKeys`. -/
def isMatch (kvs : List (String × PyVal)) : Bool :=
  let keys := kvs.map (fun p => pyLower p.1)
  severityKeys.any (fun k => k ∈ keys) && idKeys.any (fun k => k ∈ keys)

/-- Field derivation of `extract_findings_generic` for a matched node: each
field is a Python `or`-chain of case-sensitive `d.get` lookups, then `str()`
and slicing to the field's maximum length; `severity` goes through
`normalize_sev`, `cve` is passed through raw. -/
def mkFinding (source : String) (kvs : List (String × PyVal)) : Finding :=
  let title := pyOr (pyGet kvs "title") (pyOr (pyGet kvs "name")
    (pyOr (pyGet kvs "check") (pyOr (pyGet kvs "rule") (pyGet kvs "id"))))
  let sev := pyOr (pyGet kvs "severity") (pyOr (pyGet kvs "level")
    (pyOr (pyGet kvs "risk") (pyGet kvs "priority")))
  let desc := pyOr (pyGet kvs "description") (pyOr (pyGet kvs "message")
    (pyOr (pyGet kvs "details") (PyVal.str "")))
  let res := pyOr (pyGet kvs "resource") (pyOr (pyGet kvs "file")
    (pyOr (pyGet kvs "path") (pyOr (pyGet kvs "target") (PyVal.str ""))))
  let cve := pyOr (pyGet kvs "cve") (pyOr (pyGet kvs "cves") (PyVal.str ""))
  { source := source
    title := strTake (pyStr title) 200
    severity := normalize_sev sev
    description := strTake (pyStr desc) 2000
    resource := strTake (pyStr res) 500
    cve := cve }

/-- Per-node step of the extraction loop: a dict node passing `isMatch`
yields a Finding, every other node yields nothing. -/
def findingOfNode (source : String) : PyVal → Option Finding
  | .dict kvs => if isMatch kvs then some (mkFinding source kvs) else Option.none
  | _ => Option.none

/-- Model of `extract_findings_generic`: walk the whole tree and collect a
Finding from every matched dict node, in traversal order. -/
def extract_findings_generic (obj : PyVal) (source : String) : List Finding :=
  (walk obj).filterMap (findingOfNode source)

/-- Deduplication key (`(title.lower(), resource.lower(), severity)`). -/
abbrev DKey := String × String × String

/-- DedupKey of a Finding. -/
def dedupKey (f : Finding) : DKey := (pyLower f.title, pyLower f.resource, f.severity)

/-- Loop of `dedupe`, parametrised by the `seen` key set accumulated so far. -/
def dedupeFrom (seen : List DKey) : List Finding → List Finding
  | [] => []
  | f :: rest =>
    if dedupKey f ∈ seen then dedupeFrom seen rest
    else f :: dedupeFrom (dedupKey f :: seen) rest

/-- Model of `dedupe`: keep the first Finding for each DedupKey, in order. -/
def dedupe (findings : List Finding) : List Finding := dedupeFrom [] findings

/-- Code-point comparison of character lists (Python string `<`). -/
def charListLt : List Char → List Char → Bool
  | [], [] => false
  | [], _ :: _ => true
  | _ :: _, [] => false
  | a :: as, b :: bs => if a < b then true else if b < a then false else charListLt as bs

/-- Model of Python string `<` (lexicographic by code point). -/
def pyStrLt (a b : String) : Bool := charListLt a.data b.data

/-- Grouping loop of `render_fallback_report` (`by_source.setdefault(...)`):
groups keep first-insertion order and each group keeps encounter order. -/
def groupInto (acc : List (String × List Finding)) : List Finding → List (String × List Finding)
  | [] => acc
  | f :: rest =>
    if acc.any (fun p => p.1 = f.source) then
      groupInto (acc.map (fun p => if p.1 = f.source then (p.1, p.2 ++ [f]) else p)) rest
    else
      groupInto (acc ++ [(f.source, [f])]) rest

/-- Model of the `by_source` dict of `render_fallback_report`. -/
def groupBySource (findings : List Finding) : List (String × List Finding) :=
  groupInto [] findings

/-- Order used by `sorted(by_source.items())`: keys compared as Python
strings (keys are distinct, so only the key order matters). -/
def groupLe (p q : String × List Finding) : Prop := pyStrLt q.1 p.1 = false

instance : DecidableRel groupLe := fun p q => instDecidableEqBool (pyStrLt q.1 p.1) false

/-- Model of `sorted(by_source.items())`. -/
def sortedGroups (findings : List Finding) : List (String × List Finding) :=
  List.insertionSort groupLe (groupBySource findings)

/-- Lines appended by `render_fallback_report` (the `lines` list before the
final `"\n".join`). -/
def render_fallback_lines (findings : List Finding) : List String :=
  ["# Consolidated Security Report (Fallback)\n",
   "## Executive Summary\n",
   "- Total findings: " ++ toString findings.length,
   "- Severity counts (as-reported):"]
  ++ SEV_ORDER.map (fun sev =>
       "  - " ++ sev ++ ": " ++ toString (findings.countP (fun x => x.severity = sev)))
  ++ ["\n## Findings by Source Tool\n"]
  ++ (sortedGroups findings).flatMap (fun p =>
       ("### " ++ p.1 ++ " (" ++ toString p.2.length ++ ")")
       :: (p.2.take 30).map (fun f =>
            pyStrip ("- [" ++ f.severity ++ "] " ++ f.title ++ " — " ++ f.resource)))
  ++ ["\n## Findings by Severity (as-reported)\n"]
  ++ SEV_ORDER.flatMap (fun sev =>
       let items := findings.filter (fun x => x.severity = sev)
       if items.isEmpty then []
       else ("### " ++ sev ++ " (" ++ toString items.length ++ ")")
            :: (items.take 50).map (fun f => "- " ++ f.title ++ " (" ++ f.source ++ ")"))
  ++ ["\n## Analyst Next Actions\n",
      "- [ ] Validate Critical/High findings directly in the environment",
      "- [ ] Confirm scope and false positives",
      "- [ ] Create remediation tickets with owners + deadlines",
      "- [ ] Add/adjust detections for repeated patterns\n"]

/-- Model of `render_fallback_report`: the joined fallback markdown text. -/
def render_fallback_report (findings : List Finding) : String :=
  String.intercalate "\n" (render_fallback_lines findings)

/-- Projection of a Finding to the five fields sent to the summarizer
(the dict literal inside `build_llm_prompt`; `cve` is not among them). -/
def projectFinding (f : Finding) : List (String × String) :=
  [("source", f.source), ("severity", f.severity), ("title", f.title),
   ("resource", f.resource), ("description", f.description)]

/-- JSON escape of one character (`json.dumps` default `ensure_ascii`). -/
def jsonEscapeChar (c : Char) : String :=
  if c = '"' then "\\\""
  else if c = '\\' then "\\\\"
  else if c = '\n' then "\\n"
  else if c = '\t' then "\\t"
  else if c = '\r' then "\\r"
  else if c = '\x08' then "\\b"
  else if c = '\x0c' then "\\f"
  else if c.toNat < 32 ∨ 126 < c.toNat then
    if c.toNat < 65536 then "\\u" ++ hex4 c.toNat
    else "\\u" ++ hex4 (55296 + (c.toNat - 65536) / 1024)
         ++ "\\u" ++ hex4 (56320 + (c.toNat - 65536) % 1024)
  else String.mk [c]

/-- JSON escape of a string. -/
def jsonEscape (s : String) : String := String.join (s.data.map jsonEscapeChar)

/-- One key/value line of `json.dumps(items, indent=2)` at nesting depth 2. -/
def dumpsPair (p : String × String) : String :=
  "    \"" ++ jsonEscape p.1 ++ "\": \"" ++ jsonEscape p.2 ++ "\""

/-- One projected item of `json.dumps(items, indent=2)`. -/
def dumpsItem (kvs : List (String × String)) : String :=
  if kvs.isEmpty then "\x7b\x7d"
  else "\x7b\n" ++ String.intercalate ",\n" (kvs.map dumpsPair) ++ "\n  \x7d"

/-- Model of `json.dumps(items, indent=2)` for the projected item list. -/
def dumpsItems (items : List (List (String × String))) : String :=
  if items.isEmpty then "[]"
  else "[\n" ++ String.intercalate ",\n" (items.map (fun it => "  " ++ dumpsItem it)) ++ "\n]"

/-- Rules block of `build_llm_prompt` (before `.strip()`). -/
def llmRules : String :=
  "\nYou are a security report MERGER. You must follow these rules:\n- You may summarize and group findings.\n- You MUST NOT invent severities, CVEs, or risk scores.\n- Preserve each tool\x27s severity exactly as provided in the input.\n- If severity is missing, use \"UNSPECIFIED\".\n- Do not include exploit steps or payloads.\n- Output in Markdown using the requested sections exactly.\n"

/-- Request block of `build_llm_prompt` (before `.strip()`). -/
def llmRequest : String :=
  "\nCreate a consolidated report with:\n1) Executive Summary (no new severities)\n2) Findings by Source Tool\n3) Findings by Severity (as-reported)\n4) Findings by Category (OWASP / IaC / Cloud / Dependencies)\n5) Suspected Duplicates (only if obvious)\n6) Analyst Next Actions checklist\n7) Appendix: Evidence counts per tool\n\nUse short bullets. Be precise. If a field is missing, say \"Unknown\".\n"

/-- Model of `build_llm_prompt`: fixed rules and request blocks, then the
first 400 findings projected to five fields and serialized as JSON. -/
def build_llm_prompt (findings : List Finding) : String :=
  pyStrip llmRules ++ "\n\n" ++ pyStrip llmRequest ++ "\n\nINPUT_FINDINGS_JSON:\n"
    ++ dumpsItems ((findings.take 400).map projectFinding)

/-- Response handling of `call_local_llm_ollama` once a JSON body was parsed:
`data.get("response","").strip()`.  A non-dict body or a non-string value
under `response` raises (`AttributeError`), which `main` catches. -/
def ollamaResponseText (data : PyVal) : Except String String :=
  match data with
  | .dict kvs =>
    match pyGetD kvs "response" (PyVal.str "") with
    | .str s => Except.ok (pyStrip s)
    | _ => Except.error "AttributeError"
  | _ => Except.error "AttributeError"

/-- Model of `call_local_llm_ollama`: the transport outcome is either an
exception carried as `Except.error` (unreachable host, timeout, unreadable
or non-JSON body) or a parsed JSON body, which is then field-extracted. -/
def call_local_llm_ollama (body : Except String PyVal) : Except String String :=
  match body with
  | .error e => .error e
  | .ok data => ollamaResponseText data

/-- Failure-notice report built in the `except` branch of `main`. -/
def llmFailureReport (e : String) (findings : List Finding) : String :=
  "# Consolidated Security Report\n\nLLM call failed: " ++ e ++ "\n\n"
    ++ render_fallback_report findings

/-- Report-selection logic of `main`: with the LLM enabled, a non-raising
call's text is persisted as-is and a raising call falls back to the notice
plus fallback report; with the LLM disabled, the fallback report is used. -/
def mainReport (llmEnabled : Bool) (body : Except String PyVal) (findings : List Finding) :
    String :=
  if llmEnabled then
    match call_local_llm_ollama body with
    | .ok md => md
    | .error e => llmFailureReport e findings
  else render_fallback_report findings

/-- Document nested `n` dicts above a finding-shaped dict: the only matched
node sits at the bottom of the nesting. -/
def nestDoc : Nat → PyVal
  | 0 => .dict [("severity", .str "HIGH"), ("title", .str "deep")]
  | n + 1 => .dict [("a", nestDoc n)]

mutual
/-- Nesting depth of a parsed document (dicts and lists add one level). -/
def pyDepth : PyVal → Nat
  | .list xs => pyDepthList xs + 1
  | .dict kvs => pyDepthKVs kvs + 1
  | _ => 0
/-- Maximal depth over a list's elements. -/
def pyDepthList : List PyVal → Nat
  | [] => 0
  | x :: rest => max (pyDepth x) (pyDepthList rest)
/-- Maximal depth over a dict's values. -/
def pyDepthKVs : List (String × PyVal) → Nat
  | [] => 0
  | (_, v) :: rest => max (pyDepth v) (pyDepthKVs rest)
end

/-- Finding extracted from the innermost node of `nestDoc`. -/
def deepFinding : Finding :=
  { source := "nested", title := "deep", severity := "HIGH", description := "",
    resource := "", cve := PyVal.str "" }

/-! ## Basic facts about the normalizer -/

theorem normalize_sev_mem (v : PyVal) : normalize_sev v ∈ SEV_ORDER := by
  rw [normalize_sev]
  split
  · simp [SEV_ORDER]
  · dsimp only
    split
    · assumption
    · simp [SEV_ORDER]

theorem sev_order_ne_empty : ∀ s ∈ SEV_ORDER, s ≠ "" := by decide

theorem findingOfNode_shape (source : String) (x : PyVal) (f : Finding)
    (h : findingOfNode source x = some f) : ∃ kvs, f = mkFinding source kvs := by
  cases x with
  | dict kvs =>
    simp only [findingOfNode] at h
    split at h
    · exact ⟨kvs, (Option.some.inj h).symm⟩
    · exact absurd h (by simp)
  | none => exact absurd h (by simp [findingOfNode])
  | bool b => exact absurd h (by simp [findingOfNode])
  | int n => exact absurd h (by simp [findingOfNode])
  | str s => exact absurd h (by simp [findingOfNode])
  | list xs => exact absurd h (by simp [findingOfNode])

/-- Scenario A document: one list containing one finding-shaped dict. -/
def docA : PyVal := .list [.dict
  [("severity", .str "High"), ("title", .str "Open port"), ("resource", .str "10.0.0.1")]]

/-- The Finding extracted from `docA`. -/
def findingA : Finding :=
  { source := "a", title := "Open port", severity := "HIGH", description := "",
    resource := "10.0.0.1", cve := PyVal.str "" }

/-- C1: every Finding produced by the extractor has a severity that is a member
of the canonical taxonomy `SEV_ORDER` — never raw/unmapped text, never empty —
for every input document tree and every source identifier. -/
theorem C1_extracted_severity_canonical (obj : PyVal) (source : String) (f : Finding)
    (hf : f ∈ extract_findings_generic obj source) :
    f.severity ∈ SEV_ORDER ∧ f.severity ≠ "" := by
  obtain ⟨x, -, hfx⟩ := List.mem_filterMap.mp hf
  obtain ⟨kvs, rfl⟩ := findingOfNode_shape source x f hfx
  refine ⟨normalize_sev_mem _, sev_order_ne_empty _ (normalize_sev_mem _)⟩

/-- Witness for C1 at the Scenario A document. -/
theorem C1_witness : findingA.severity ∈ SEV_ORDER ∧ findingA.severity ≠ "" :=
  C1_extracted_severity_canonical docA "a" findingA (List.mem_singleton_self findingA)

/-- C2: the severity normalizer is total — every input of any type (including
the absent value `None`) yields a taxonomy member; missing/empty input yields
`UNSPECIFIED`; after trimming and uppercasing, the aliases map `crit` to
`CRITICAL`, `Severe` to `HIGH`, `moderate` to `MEDIUM`, `Informational` to
`INFO`; an unrecognized token such as `banana` yields `UNSPECIFIED`. -/
theorem C2_normalize_sev_total_alias_correct :
    (∀ v : PyVal, normalize_sev v ∈ SEV_ORDER) ∧
    normalize_sev PyVal.none = "UNSPECIFIED" ∧
    normalize_sev (PyVal.str "") = "UNSPECIFIED" ∧
    normalize_sev (PyVal.str "crit") = "CRITICAL" ∧
    normalize_sev (PyVal.str "Severe") = "HIGH" ∧
    normalize_sev (PyVal.str "  moderate ") = "MEDIUM" ∧
    normalize_sev (PyVal.str "Informational") = "INFO" ∧
    normalize_sev (PyVal.str "banana") = "UNSPECIFIED" ∧
    normalize_sev (PyVal.int 3) = "UNSPECIFIED" :=
  ⟨normalize_sev_mem, rfl, rfl, rfl, rfl, rfl, rfl, rfl, rfl⟩

/-! ## Deduplication -/

theorem dedupeFrom_sublist (seen : List DKey) (l : List Finding) :
    (dedupeFrom seen l).Sublist l := by
  induction l generalizing seen with
  | nil => simp [dedupeFrom]
  | cons f rest ih =>
    rw [dedupeFrom]
    split
    · exact (ih seen).cons f
    · exact (ih _).cons₂ f

theorem dedupeFrom_key_not_seen (seen : List DKey) (l : List Finding) :
    ∀ g ∈ dedupeFrom seen l, dedupKey g ∉ seen := by
  induction l generalizing seen with
  | nil => simp [dedupeFrom]
  | cons f rest ih =>
    intro g hg
    rw [dedupeFrom] at hg
    split at hg
    · exact ih seen g hg
    · next hns =>
      rcases List.mem_cons.mp hg with rfl | hg'
      · exact hns
      · intro hmem
        exact ih _ g hg' (List.mem_cons_of_mem _ hmem)

theorem dedupeFrom_pairwise (seen : List DKey) (l : List Finding) :
    (dedupeFrom seen l).Pairwise (fun a b => dedupKey a ≠ dedupKey b) := by
  induction l generalizing seen with
  | nil => simp [dedupeFrom]
  | cons f rest ih =>
    rw [dedupeFrom]
    split
    · exact ih seen
    · refine List.Pairwise.cons ?_ (ih _)
      intro b hb heq
      exact dedupeFrom_key_not_seen _ _ b hb (heq ▸ List.mem_cons_self _ _)

theorem dedupeFrom_first_wins (seen : List DKey) (l : List Finding) :
    ∀ g ∈ dedupeFrom seen l, l.find? (fun z => dedupKey z = dedupKey g) = some g := by
  induction l generalizing seen with
  | nil => simp [dedupeFrom]
  | cons f rest ih =>
    intro g hg
    rw [dedupeFrom] at hg
    split at hg
    · next hf =>
      have hkg : dedupKey g ∉ seen := dedupeFrom_key_not_seen _ _ g hg
      have hne : ¬ (dedupKey f = dedupKey g) := fun h => hkg (h ▸ hf)
      rw [List.find?_cons_of_neg _ (by simpa using hne)]
      exact ih seen g hg
    · next hf =>
      rcases List.mem_cons.mp hg with rfl | hg'
      · rw [List.find?_cons_of_pos _ (by simp)]
      · have hkg : dedupKey g ∉ dedupKey f :: seen :=
          dedupeFrom_key_not_seen _ _ g hg'
        have hne : ¬ (dedupKey f = dedupKey g) :=
          fun h => hkg (h ▸ List.mem_cons_self _ _)
        rw [List.find?_cons_of_neg _ (by simpa using hne)]
        exact ih _ g hg'

theorem dedupeFrom_covers (seen : List DKey) (l : List Finding) :
    ∀ f ∈ l, dedupKey f ∉ seen → ∃ g ∈ dedupeFrom seen l, dedupKey g = dedupKey f := by
  induction l generalizing seen with
  | nil => simp
  | cons x rest ih =>
    intro f hf hns
    rcases List.mem_cons.mp hf with rfl | hf'
    · rw [dedupeFrom]
      split
      · next h => exact absurd h hns
      · exact ⟨f, List.mem_cons_self _ _, rfl⟩
    · rw [dedupeFrom]
      split
      · exact ih seen f hf' hns
      · by_cases hk : dedupKey f = dedupKey x
        · exact ⟨x, List.mem_cons_self _ _, hk.symm⟩
        · obtain ⟨g, hg, hkg⟩ := ih (dedupKey x :: seen) f hf' (by
            intro hmem
            rcases List.mem_cons.mp hmem with h1 | h2
            · exact hk h1
            · exact hns h2)
          exact ⟨g, List.mem_cons_of_mem _ hg, hkg⟩

/-- C3: deduplication returns the order-preserving subsequence keeping only
the first occurrence of each DedupKey — the output is a sublist of the input,
no two survivors share a key, every survivor is the first input element with
its key (so of two findings with identical key but different source or
description only the first survives), and every input key is represented. -/
theorem C3_dedupe_order_preserving_first_wins (findings : List Finding) :
    (dedupe findings).Sublist findings ∧
    (dedupe findings).Pairwise (fun a b => dedupKey a ≠ dedupKey b) ∧
    (∀ g ∈ dedupe findings,
      findings.find? (fun z => dedupKey z = dedupKey g) = some g) ∧
    (∀ f ∈ findings, ∃ g ∈ dedupe findings, dedupKey g = dedupKey f) :=
  ⟨dedupeFrom_sublist [] findings, dedupeFrom_pairwise [] findings,
    dedupeFrom_first_wins [] findings,
    fun f hf => dedupeFrom_covers [] findings f hf (by simp)⟩

/-- Candidate finding from source `a` (first in order). -/
def fB1 : Finding :=
  { source := "a", title := "Open port", severity := "HIGH", description := "d1",
    resource := "10.0.0.1", cve := PyVal.str "" }

/-- Candidate finding from source `b` with the same DedupKey as `fB1` but a
different source and description. -/
def fB2 : Finding :=
  { source := "b", title := "OPEN PORT", severity := "HIGH", description := "d2",
    resource := "10.0.0.1", cve := PyVal.str "" }

/-- Witness for C3: of two findings with equal key and different source and
description, the survivor is the first input element with that key. -/
theorem C3_witness :
    [fB1, fB2].find? (fun z => dedupKey z = dedupKey fB1) = some fB1 :=
  (C3_dedupe_order_preserving_first_wins [fB1, fB2]).2.2.1 fB1
    (List.mem_singleton_self fB1)

theorem dedupeFrom_eq_self (seen : List DKey) (l : List Finding)
    (hseen : ∀ g ∈ l, dedupKey g ∉ seen)
    (hpw : l.Pairwise (fun a b => dedupKey a ≠ dedupKey b)) :
    dedupeFrom seen l = l := by
  induction l generalizing seen with
  | nil => rfl
  | cons x rest ih =>
    rw [dedupeFrom, if_neg (hseen x (List.mem_cons_self _ _))]
    congr 1
    refine ih _ ?_ (List.pairwise_cons.mp hpw).2
    intro g hg hmem
    rcases List.mem_cons.mp hmem with h1 | h2
    · exact (List.pairwise_cons.mp hpw).1 g hg h1.symm
    · exact hseen g (List.mem_cons_of_mem _ hg) h2

/-- C4: deduplication is idempotent — applying `dedupe` to its own output
yields that output unchanged, for every list of Findings. -/
theorem C4_dedupe_idempotent (findings : List Finding) :
    dedupe (dedupe findings) = dedupe findings :=
  dedupeFrom_eq_self [] (dedupe findings) (by simp) (dedupeFrom_pairwise [] findings)

/-! ## Traversal depth -/

theorem extract_nestDoc (n : Nat) :
    extract_findings_generic (nestDoc n) "nested" = [deepFinding] := by
  induction n with
  | zero => rfl
  | succ n ih =>
    have h1 : extract_findings_generic (nestDoc (n + 1)) "nested"
        = (walk (nestDoc n) ++ []).filterMap (findingOfNode "nested") := rfl
    rw [h1, List.append_nil]
    exact ih

theorem pyDepth_nestDoc (n : Nat) : pyDepth (nestDoc n) = n + 1 := by
  induction n with
  | zero => rfl
  | succ n ih =>
    have h1 : pyDepth (nestDoc (n + 1)) = max (pyDepth (nestDoc n)) 0 + 1 := rfl
    rw [h1, Nat.max_zero, ih]

/-- C5: evidence that the traversal has no depth guard — for every candidate
bound `B` the document `nestDoc B` has nesting depth `B + 1`, its only
finding-shaped dict sits at the very bottom of that nesting, and the
extractor still visits it and emits its Finding, so the recursion of `walk`
descends past every fixed bound (the source `walk` carries no depth
parameter or guard at all). -/
theorem C5_traversal_descends_past_every_bound (B : Nat) :
    B < pyDepth (nestDoc B) ∧
    extract_findings_generic (nestDoc B) "nested" = [deepFinding] := by
  refine ⟨?_, extract_nestDoc B⟩
  rw [pyDepth_nestDoc]
  omega

/-! ## Field derivation -/

/-- Node with the key `title` present but mapped to a falsy value and a
truthy `name` behind it. -/
def nodeC6 : List (String × PyVal) :=
  [("title", .str ""), ("name", .str "x"), ("severity", .str "HIGH")]

/-- C6 counterexample: in `nodeC6` the key `title` is present (with value
`""`), so the claim says the Finding's title is derived from it (giving
`""`); the code instead emits title `"x"`, taken from `name`, because the
`or`-chain skips present-but-falsy values. -/
theorem C6_counterexample :
    pyGet nodeC6 "title" = PyVal.str "" ∧
    isMatch nodeC6 = true ∧
    (extract_findings_generic (PyVal.dict nodeC6) "s").map Finding.title = ["x"] ∧
    strTake (pyStr (pyGet nodeC6 "title")) 200 = "" ∧
    ("x" : String) ≠ "" :=
  ⟨rfl, rfl, rfl, rfl, by decide⟩

/-- C6 amended: for every matched node, each output field is derived by
strict precedence where the first key whose value is truthy wins, under
case-sensitive lookup — a present key with a falsy value is skipped in
favour of later keys in its chain; a fully falsy description, resource or
cve chain yields the empty-string default, a fully falsy title chain falls
through to the `id` lookup, and a fully falsy severity chain falls through
to the `priority` lookup (then normalized).  The conjuncts below cover every
link of every chain: `title > name > check > rule > id`,
`severity > level > risk > priority`, `description > message > details`,
`resource > file > path > target`, `cve > cves`. -/
theorem C6_amended_first_truthy_wins (source : String) (kvs : List (String × PyVal)) :
    (pyTruthy (pyGet kvs "title") = true →
      (mkFinding source kvs).title = strTake (pyStr (pyGet kvs "title")) 200) ∧
    (pyTruthy (pyGet kvs "title") = false → pyTruthy (pyGet kvs "name") = true →
      (mkFinding source kvs).title = strTake (pyStr (pyGet kvs "name")) 200) ∧
    (pyTruthy (pyGet kvs "title") = false → pyTruthy (pyGet kvs "name") = false →
      pyTruthy (pyGet kvs "check") = true →
      (mkFinding source kvs).title = strTake (pyStr (pyGet kvs "check")) 200) ∧
    (pyTruthy (pyGet kvs "title") = false → pyTruthy (pyGet kvs "name") = false →
      pyTruthy (pyGet kvs "check") = false → pyTruthy (pyGet kvs "rule") = true →
      (mkFinding source kvs).title = strTake (pyStr (pyGet kvs "rule")) 200) ∧
    (pyTruthy (pyGet kvs "title") = false → pyTruthy (pyGet kvs "name") = false →
      pyTruthy (pyGet kvs "check") = false → pyTruthy (pyGet kvs "rule") = false →
      (mkFinding source kvs).title = strTake (pyStr (pyGet kvs "id")) 200) ∧
    (pyTruthy (pyGet kvs "severity") = true →
      (mkFinding source kvs).severity = normalize_sev (pyGet kvs "severity")) ∧
    (pyTruthy (pyGet kvs "severity") = false → pyTruthy (pyGet kvs "level") = true →
      (mkFinding source kvs).severity = normalize_sev (pyGet kvs "level")) ∧
    (pyTruthy (pyGet kvs "severity") = false → pyTruthy (pyGet kvs "level") = false →
      pyTruthy (pyGet kvs "risk") = true →
      (mkFinding source kvs).severity = normalize_sev (pyGet kvs "risk")) ∧
    (pyTruthy (pyGet kvs "severity") = false → pyTruthy (pyGet kvs "level") = false →
      pyTruthy (pyGet kvs "risk") = false →
      (mkFinding source kvs).severity = normalize_sev (pyGet kvs "priority")) ∧
    (pyTruthy (pyGet kvs "description") = true →
      (mkFinding source kvs).description = strTake (pyStr (pyGet kvs "description")) 2000) ∧
    (pyTruthy (pyGet kvs "description") = false → pyTruthy (pyGet kvs "message") = true →
      (mkFinding source kvs).description = strTake (pyStr (pyGet kvs "message")) 2000) ∧
    (pyTruthy (pyGet kvs "description") = false → pyTruthy (pyGet kvs "message") = false →
      pyTruthy (pyGet kvs "details") = true →
      (mkFinding source kvs).description = strTake (pyStr (pyGet kvs "details")) 2000) ∧
    (pyTruthy (pyGet kvs "description") = false → pyTruthy (pyGet kvs "message") = false →
      pyTruthy (pyGet kvs "details") = false →
      (mkFinding source kvs).description = "") ∧
    (pyTruthy (pyGet kvs "resource") = true →
      (mkFinding source kvs).resource = strTake (pyStr (pyGet kvs "resource")) 500) ∧
    (pyTruthy (pyGet kvs "resource") = false → pyTruthy (pyGet kvs "file") = true →
      (mkFinding source kvs).resource = strTake (pyStr (pyGet kvs "file")) 500) ∧
    (pyTruthy (pyGet kvs "resource") = false → pyTruthy (pyGet kvs "file") = false →
      pyTruthy (pyGet kvs "path") = true →
      (mkFinding source kvs).resource = strTake (pyStr (pyGet kvs "path")) 500) ∧
    (pyTruthy (pyGet kvs "resource") = false → pyTruthy (pyGet kvs "file") = false →
      pyTruthy (pyGet kvs "path") = false → pyTruthy (pyGet kvs "target") = true →
      (mkFinding source kvs).resource = strTake (pyStr (pyGet kvs "target")) 500) ∧
    (pyTruthy (pyGet kvs "resource") = false → pyTruthy (pyGet kvs "file") = false →
      pyTruthy (pyGet kvs "path") = false → pyTruthy (pyGet kvs "target") = false →
      (mkFinding source kvs).resource = "") ∧
    (pyTruthy (pyGet kvs "cve") = true →
      (mkFinding source kvs).cve = pyGet kvs "cve") ∧
    (pyTruthy (pyGet kvs "cve") = false → pyTruthy (pyGet kvs "cves") = true →
      (mkFinding source kvs).cve = pyGet kvs "cves") ∧
    (pyTruthy (pyGet kvs "cve") = false → pyTruthy (pyGet kvs "cves") = false →
      (mkFinding source kvs).cve = PyVal.str "") := by
  refine ⟨?_, ?_, ?_, ?_, ?_, ?_, ?_, ?_, ?_, ?_, ?_, ?_, ?_, ?_, ?_, ?_, ?_, ?_, ?_, ?_,
    ?_⟩ <;> (intros; simp_all [mkFinding, pyOr]) <;> rfl

/-- Node for the C6 witness: a truthy `title` value wins. -/
def nodeC6w : List (String × PyVal) :=
  [("title", PyVal.str "T"), ("severity", PyVal.str "HIGH")]

/-- Witness for the amended C6 at a node whose `title` value is truthy. -/
theorem C6_witness :
    (mkFinding "s" nodeC6w).title = strTake (pyStr (pyGet nodeC6w "title")) 200 :=
  (C6_amended_first_truthy_wins "s" nodeC6w).1 rfl

/-! ## Summarizer response handling -/

/-- C7 counterexample: with summarization enabled, an HTTP-success response
whose JSON body is an empty object (no generated-text field) yields empty
text, and that empty text is persisted directly as the final report — it is
not a fallback-rendered report. -/
theorem C7_counterexample :
    mainReport true (Except.ok (PyVal.dict [])) [] = "" ∧
    render_fallback_report [] ≠ "" ∧
    mainReport true (Except.ok (PyVal.dict [])) [] ≠ render_fallback_report [] :=
  ⟨rfl, by decide, fun h => absurd h.symm (by decide)⟩

/-- C7 amended: only a raising call takes the fallback path with the failure
notice prepended — a transport exception (unreachable host, timeout, non-JSON
body), a parsed body that is not a dict (`.get` raises `AttributeError`), or
a dict whose generated-text field holds a non-string (`.strip()` raises
`AttributeError`); a dict response whose generated-text field is a string —
including the implicit `""` when the field is absent — is stripped and
persisted as the final report itself, never routed to the fallback. -/
theorem C7_amended_fallback_only_on_exception (e : String) (findings : List Finding) :
    (mainReport true (Except.error e) findings
      = "# Consolidated Security Report\n\nLLM call failed: " ++ e ++ "\n\n"
        ++ render_fallback_report findings) ∧
    (∀ data : PyVal, (∀ kvs, data ≠ PyVal.dict kvs) →
      mainReport true (Except.ok data) findings
        = "# Consolidated Security Report\n\nLLM call failed: " ++ "AttributeError" ++ "\n\n"
          ++ render_fallback_report findings) ∧
    (∀ kvs, (∀ s, pyGetD kvs "response" (PyVal.str "") ≠ PyVal.str s) →
      mainReport true (Except.ok (PyVal.dict kvs)) findings
        = "# Consolidated Security Report\n\nLLM call failed: " ++ "AttributeError" ++ "\n\n"
          ++ render_fallback_report findings) ∧
    (∀ kvs s, pyGetD kvs "response" (PyVal.str "") = PyVal.str s →
      mainReport true (Except.ok (PyVal.dict kvs)) findings = pyStrip s) := by
  refine ⟨rfl, ?_, ?_, ?_⟩
  · intro data hnd
    cases data with
    | dict kvs => exact absurd rfl (hnd kvs)
    | none => rfl
    | bool b => rfl
    | int n => rfl
    | str s => rfl
    | list xs => rfl
  · intro kvs hns
    cases hh : pyGetD kvs "response" (PyVal.str "") with
    | str s => exact absurd hh (hns s)
    | none =>
      simp [mainReport, call_local_llm_ollama, ollamaResponseText, llmFailureReport, hh]
    | bool b =>
      simp [mainReport, call_local_llm_ollama, ollamaResponseText, llmFailureReport, hh]
    | int n =>
      simp [mainReport, call_local_llm_ollama, ollamaResponseText, llmFailureReport, hh]
    | list xs =>
      simp [mainReport, call_local_llm_ollama, ollamaResponseText, llmFailureReport, hh]
    | dict kvs2 =>
      simp [mainReport, call_local_llm_ollama, ollamaResponseText, llmFailureReport, hh]
  · intro kvs s h
    simp [mainReport, call_local_llm_ollama, ollamaResponseText, h]

/-- Witness for the amended C7: a string-valued response field is stripped
and persisted as-is, and a non-string response field (here the number `5`)
takes the notice-plus-fallback path. -/
theorem C7_witness :
    mainReport true (Except.ok (PyVal.dict [("response", PyVal.str "  ok  ")])) [] = "ok" ∧
    mainReport true (Except.ok (PyVal.dict [("response", PyVal.int 5)])) []
      = "# Consolidated Security Report\n\nLLM call failed: AttributeError\n\n"
        ++ render_fallback_report [] :=
  ⟨(C7_amended_fallback_only_on_exception "x" []).2.2.2 [("response", PyVal.str "  ok  ")]
      "  ok  " rfl,
   (C7_amended_fallback_only_on_exception "x" []).2.2.1 [("response", PyVal.int 5)]
      (fun _ h => PyVal.noConfusion h)⟩

/-! ## Fallback report counts -/

theorem groupInto_spec (l : List Finding) :
    ∀ (acc : List (String × List Finding)) (done : List Finding),
    (∀ p ∈ acc, p.2 = done.filter (fun g => g.source = p.1)) →
    (∀ g ∈ done, ∃ p ∈ acc, p.1 = g.source) →
    ∀ p ∈ groupInto acc l, p.2 = (done ++ l).filter (fun g => g.source = p.1) := by
  induction l with
  | nil =>
    intro acc done h1 _ p hp
    rw [groupInto] at hp
    simpa using h1 p hp
  | cons f rest ih =>
    intro acc done h1 h2 p hp
    rw [groupInto] at hp
    split at hp
    · next hany =>
      have step := ih (acc.map (fun p => if p.1 = f.source then (p.1, p.2 ++ [f]) else p))
        (done ++ [f]) ?_ ?_ p hp
      · rwa [List.append_assoc, List.singleton_append] at step
      · intro q hq
        obtain ⟨r, hr, rfl⟩ := List.mem_map.mp hq
        by_cases hrf : r.1 = f.source
        · rw [if_pos hrf]
          rw [List.filter_append, ← h1 r hr]
          simp [List.filter_cons, hrf.symm]
        · rw [if_neg hrf]
          have hfs : ¬ (f.source = r.1) := fun hh => hrf hh.symm
          rw [List.filter_append, h1 r hr]
          simp [List.filter_cons, hfs]
      · intro g hg
        rcases List.mem_append.mp hg with hg' | hg'
        · obtain ⟨q, hq, hq1⟩ := h2 g hg'
          refine ⟨(if q.1 = f.source then (q.1, q.2 ++ [f]) else q),
            List.mem_map_of_mem _ hq, ?_⟩
          by_cases hqf : q.1 = f.source
          · rw [if_pos hqf]; exact hq1
          · rw [if_neg hqf]; exact hq1
        · have hgf : g = f := by simpa using hg'
          subst hgf
          obtain ⟨q, hq, hq1⟩ := List.any_eq_true.mp hany
          refine ⟨(if q.1 = g.source then (q.1, q.2 ++ [g]) else q),
            List.mem_map_of_mem _ hq, ?_⟩
          have hq1' : q.1 = g.source := of_decide_eq_true hq1
          rw [if_pos hq1']; exact hq1'
    · next hnone =>
      have step := ih (acc ++ [(f.source, [f])]) (done ++ [f]) ?_ ?_ p hp
      · rwa [List.append_assoc, List.singleton_append] at step
      · intro q hq
        rcases List.mem_append.mp hq with hq' | hq'
        · have hqf : ¬ (q.1 = f.source) := fun hh =>
            hnone (List.any_eq_true.mpr ⟨q, hq', decide_eq_true hh⟩)
          have hfs : ¬ (f.source = q.1) := fun hh => hqf hh.symm
          rw [List.filter_append, h1 q hq']
          simp [List.filter_cons, hfs]
        · have hq'' : q = (f.source, [f]) := by simpa using hq'
          subst hq''
          have hdone : done.filter (fun g => g.source = f.source) = [] := by
            refine List.filter_eq_nil_iff.mpr ?_
            intro g hg hgf
            have hgf' : g.source = f.source := of_decide_eq_true hgf
            obtain ⟨r, hr, hr1⟩ := h2 g hg
            exact hnone (List.any_eq_true.mpr ⟨r, hr, decide_eq_true (hr1.trans hgf')⟩)
          rw [List.filter_append, hdone]
          simp [List.filter_cons]
      · intro g hg
        rcases List.mem_append.mp hg with hg' | hg'
        · obtain ⟨q, hq, hq1⟩ := h2 g hg'
          exact ⟨q, List.mem_append_left _ hq, hq1⟩
        · have hgf : g = f := by simpa using hg'
          subst hgf
          exact ⟨(g.source, [g]),
            List.mem_append_right _ (by simp), rfl⟩

theorem groupBySource_content (findings : List Finding) :
    ∀ p ∈ groupBySource findings, p.2 = findings.filter (fun g => g.source = p.1) := by
  intro p hp
  have h := groupInto_spec findings [] [] (by simp) (by simp) p hp
  simpa using h

theorem mem_sortedGroups_iff (findings : List Finding) (p : String × List Finding) :
    p ∈ sortedGroups findings ↔ p ∈ groupBySource findings :=
  (List.perm_insertionSort groupLe (groupBySource findings)).mem_iff

/-- C8: for every Finding list, the fallback report's Executive Summary total
line, its per-severity histogram lines (one per taxonomy member in canonical
order, present even when the count is zero), and every per-source and
per-severity section heading carry the true counts over the full list,
independent of the 30-per-source and 50-per-severity caps applied only to the
detail listings. -/
theorem C8_fallback_counts_are_true_counts (findings : List Finding) :
    (("- Total findings: " ++ toString findings.length) ∈ render_fallback_lines findings) ∧
    (∀ sev ∈ SEV_ORDER,
      ("  - " ++ sev ++ ": " ++ toString (findings.countP (fun x => x.severity = sev)))
        ∈ render_fallback_lines findings) ∧
    (∀ p ∈ sortedGroups findings,
      ("### " ++ p.1 ++ " ("
          ++ toString (findings.filter (fun g => g.source = p.1)).length ++ ")")
        ∈ render_fallback_lines findings) ∧
    (∀ sev ∈ SEV_ORDER, findings.filter (fun x => x.severity = sev) ≠ [] →
      ("### " ++ sev ++ " ("
          ++ toString (findings.filter (fun x => x.severity = sev)).length ++ ")")
        ∈ render_fallback_lines findings) := by
  refine ⟨?_, ?_, ?_, ?_⟩
  · simp [render_fallback_lines]
  · intro sev hsev
    simp only [render_fallback_lines, List.mem_append]
    exact Or.inl (Or.inl (Or.inl (Or.inl (Or.inl (Or.inr (List.mem_map_of_mem _ hsev))))))
  · intro p hp
    have hc : p.2 = findings.filter (fun g => g.source = p.1) :=
      groupBySource_content findings p ((mem_sortedGroups_iff findings p).mp hp)
    simp only [render_fallback_lines, List.mem_append]
    refine Or.inl (Or.inl (Or.inl (Or.inr ?_)))
    rw [← hc]
    exact List.mem_flatMap.mpr ⟨p, hp, List.mem_cons_self _ _⟩
  · intro sev hsev hne
    simp only [render_fallback_lines, List.mem_append]
    refine Or.inl (Or.inr ?_)
    refine List.mem_flatMap.mpr ⟨sev, hsev, ?_⟩
    have hni : ¬ ((findings.filter (fun x => x.severity = sev)).isEmpty = true) := by
      simpa [List.isEmpty_iff] using hne
    rw [if_neg hni]
    exact List.mem_cons_self _ _

/-- Finding used to witness C8 with a nonzero count. -/
def fC8 : Finding :=
  { source := "t", title := "x", severity := "HIGH", description := "", resource := "r",
    cve := PyVal.str "" }

/-- Witness for C8: the HIGH histogram line of a one-finding report shows the
true count 1. -/
theorem C8_witness : ("  - HIGH: 1") ∈ render_fallback_lines [fC8] :=
  (C8_fallback_counts_are_true_counts [fC8]).2.1 "HIGH" (by decide)

/-! ## Summarization request -/

/-- C9: the summarization request is a function of exactly the first 400
findings projected to the five fields source, severity, title, resource,
description — findings past the cap and every finding's `cve` value are never
sent, so any two lists agreeing on that projection (in particular two lists
differing only in `cve` values) produce identical request text; and each
projected item carries exactly those five keys. -/
theorem C9_prompt_capped_and_cve_free (fs gs : List Finding)
    (h : (fs.take 400).map projectFinding = (gs.take 400).map projectFinding) :
    build_llm_prompt fs = build_llm_prompt gs ∧
    (∀ it ∈ (fs.take 400).map projectFinding,
      it.map Prod.fst = ["source", "severity", "title", "resource", "description"]) := by
  constructor
  · unfold build_llm_prompt
    rw [h]
  · intro it hit
    obtain ⟨f, -, rfl⟩ := List.mem_map.mp hit
    rfl

/-- Finding whose `cve` field holds one CVE identifier. -/
def fCveA : Finding :=
  { source := "t", title := "x", severity := "HIGH", description := "d", resource := "r",
    cve := PyVal.str "CVE-2024-0001" }

/-- The same Finding with a different `cve` value. -/
def fCveB : Finding :=
  { source := "t", title := "x", severity := "HIGH", description := "d", resource := "r",
    cve := PyVal.str "CVE-2024-9999" }

/-- Witness for C9: two lists differing only in `cve` values give the same
request text. -/
theorem C9_witness : build_llm_prompt [fCveA] = build_llm_prompt [fCveB] :=
  (C9_prompt_capped_and_cve_free [fCveA] [fCveB] rfl).1

/-! ## Falsy identifier chain -/

/-- Node whose identifier-like keys are all absent or falsy, with `id`
present and falsy (`0`). -/
def nodeC10 : List (String × PyVal) := [("severity", PyVal.str "HIGH"), ("id", PyVal.int 0)]

/-- C10 counterexample: in `nodeC10` every identifier-like key is absent or
falsy, yet the emitted Finding's title is `"0"` — the `str()` of the `id`
value returned by the `or`-chain's last operand — not the claimed literal
`"None"`. -/
theorem C10_counterexample :
    isMatch nodeC10 = true ∧
    pyTruthy (pyGet nodeC10 "title") = false ∧
    pyTruthy (pyGet nodeC10 "name") = false ∧
    pyTruthy (pyGet nodeC10 "check") = false ∧
    pyTruthy (pyGet nodeC10 "rule") = false ∧
    pyTruthy (pyGet nodeC10 "id") = false ∧
    (extract_findings_generic (PyVal.dict nodeC10) "s").map Finding.title = ["0"] ∧
    ("0" : String) ≠ "None" :=
  ⟨rfl, rfl, rfl, rfl, rfl, rfl, rfl, by decide⟩

/-- C10 amended: for every matched node whose `title`, `name`, `check` and
`rule` values are all falsy (or absent), the extractor still emits a Finding
and its title is the `str()` of the `id` lookup — the literal `"None"`
exactly when `id` is absent (the lookup returns the missing-value sentinel),
and the string conversion of the falsy `id` value otherwise. -/
theorem C10_amended_title_from_id_lookup (source : String) (kvs : List (String × PyVal))
    (hm : isMatch kvs = true)
    (h1 : pyTruthy (pyGet kvs "title") = false)
    (h2 : pyTruthy (pyGet kvs "name") = false)
    (h3 : pyTruthy (pyGet kvs "check") = false)
    (h4 : pyTruthy (pyGet kvs "rule") = false) :
    mkFinding source kvs ∈ extract_findings_generic (PyVal.dict kvs) source ∧
    (mkFinding source kvs).title = strTake (pyStr (pyGet kvs "id")) 200 := by
  constructor
  · show mkFinding source kvs ∈
      (PyVal.dict kvs :: walkKVs kvs).filterMap (findingOfNode source)
    rw [List.filterMap_cons]
    simp only [findingOfNode, hm, if_true]
    exact List.mem_cons_self _ _
  · simp [mkFinding, pyOr, h1, h2, h3, h4]

/-- Node for the C10 witness: the match succeeds case-insensitively through
`Name`, but the case-sensitive lookups all miss, so `id` is absent and the
title becomes `"None"`. -/
def nodeC10w : List (String × PyVal) :=
  [("severity", PyVal.str "HIGH"), ("Name", PyVal.str "x")]

/-- Witness for the amended C10: with `id` absent the title is `"None"`. -/
theorem C10_witness :
    mkFinding "s" nodeC10w ∈ extract_findings_generic (PyVal.dict nodeC10w) "s" ∧
    (mkFinding "s" nodeC10w).title = "None" :=
  C10_amended_title_from_id_lookup "s" nodeC10w rfl rfl rfl rfl rfl
